import Mathlib

/-!
Verification of the pdf-generator statement renderer (`src/index.ts`).

The development shallowly embeds the pure core of the program:

* the data model (`TemplateData` and its JSON view `JValue`),
* the flattener `flattenObject`,
* the fragment renderers `renderAddress` / `renderTransactions` and the
  currency formatter `formatCurrency`,
* the token substitution engine `replaceTokens`,
* the replacement builder `buildTemplateReplacements`,
* the pagination feedback controller (the pure dataflow of `generateHtml`,
  with the page-count probe result passed in as a parameter, since the probe
  itself is an external subprocess), and
* the WeasyPrint gateway loop `runWeasyPrint` (with the spawn
  result passed in as data).

JavaScript numbers relevant to this program are finite IEEE doubles; every
finite double has an exact finite decimal expansion, so number values are
embedded as exact decimal fixed-point values `mantissa / 10 ^ exp` (plus a
NaN marker), keeping all arithmetic on integers.
-/

/-- A JavaScript number as used by the program: `NaN`, or the exact value
`mantissa / 10 ^ exp`.  (Every finite IEEE-754 double is exactly
representable in this form.) -/
inductive JNum where
  | nan : JNum
  | dec (mantissa : Int) (exp : Nat) : JNum
deriving DecidableEq, Repr

/-- Digit character for `d % 10` (ASCII `'0'` + digit). -/
def digitChar (d : Nat) : Char := Char.ofNat (48 + d % 10)

/-- Fuel-driven accumulator loop producing the decimal digits of `n`. -/
def natDigitsGo : Nat → Nat → List Char → List Char
  | 0, _, acc => acc
  | fuel + 1, n, acc =>
    if n < 10 then digitChar n :: acc
    else natDigitsGo fuel (n / 10) (digitChar (n % 10) :: acc)

/-- Decimal digits of a natural number, most significant first. -/
def natDigits (n : Nat) : List Char := natDigitsGo (n + 1) n []

/-- Decimal string of a natural number. -/
def natString (n : Nat) : String := String.mk (natDigits n)

/-- JavaScript `String(n)` for an integer value. -/
def intString (n : Int) : String :=
  String.mk ((if n < 0 then ['-'] else []) ++ natDigits n.natAbs)

/-- Left-pad a digit list with `'0'` up to length `k`. -/
def padLeftZeros (k : Nat) (ds : List Char) : List Char :=
  List.replicate (k - ds.length) '0' ++ ds

/-- Drop trailing `'0'` characters. -/
def stripTrailingZeros (ds : List Char) : List Char :=
  (ds.reverse.dropWhile (fun c => c = '0')).reverse

/-- JavaScript `String(x)` on a number in the plain-decimal regime
(no exponent notation): sign, integer part, and the fractional digits of the
exact decimal value with trailing zeros stripped; `NaN` prints as `"NaN"`. -/
def jnumToString : JNum → String
  | .nan => "NaN"
  | .dec m e =>
    let a := m.natAbs
    let p := 10 ^ e
    let ip := a / p
    let frac := stripTrailingZeros (padLeftZeros e (natDigits (a % p)))
    String.mk ((if m < 0 then ['-'] else []) ++ natDigits ip ++
      (if frac = [] then [] else '.' :: frac))

/-- Round `num / den` to the nearest integer, ties away from zero (the
default `halfExpand` rounding of `Intl.NumberFormat`). -/
def roundHalfAway (num : Int) (den : Nat) : Int :=
  if 0 ≤ num then ((2 * num.toNat + den) / (2 * den) : Nat)
  else -(((2 * num.natAbs + den) / (2 * den) : Nat))

/-- Fuel-driven grouping of a reversed digit list into blocks of three
separated by `','`. -/
def groupRevGo : Nat → List Char → List Char
  | 0, ds => ds
  | fuel + 1, ds =>
    if ds.length ≤ 3 then ds
    else ds.take 3 ++ ',' :: groupRevGo fuel (ds.drop 3)

/-- Insert `','` thousands separators into a digit list. -/
def groupThousands (ds : List Char) : List Char :=
  (groupRevGo (ds.length + 1) ds.reverse).reverse

/-- `CurrencyValue` of the source: `number | null | undefined`.  `none`
stands for both `null` and `undefined` (the code treats them identically). -/
abbrev CurrencyValue := Option JNum

/-- `formatCurrency` of the source: `undefined`/`null`/`NaN` format as `""`;
otherwise the shared `Intl.NumberFormat("en-US", { style: "currency",
currency: "USD", minimumFractionDigits: 2 })` formatter is applied: round to
cents (ties away from zero), `'$'` sign, thousands separators, exactly two
fraction digits, leading `'-'` for negative amounts. -/
def formatCurrency : CurrencyValue → String
  | none => ""
  | some .nan => ""
  | some (.dec m e) =>
    let cents := roundHalfAway (m * 100) (10 ^ e)
    let a := cents.natAbs
    let unitsPart := groupThousands (natDigits (a / 100))
    let centsPart := padLeftZeros 2 (natDigits (a % 100))
    String.mk ((if cents < 0 then ['-'] else []) ++
      '$' :: (unitsPart ++ '.' :: centsPart))

example : formatCurrency (some (.dec 12345 1)) = "$1,234.50" := by decide
example : jnumToString (.dec 12345 1) = "1234.5" := by decide
example : jnumToString (.dec 123405 2) = "1234.05" := by decide
example : jnumToString (.dec (-20) 1) = "-2" := by decide
example : formatCurrency (some (.dec (-12345) 1)) = "-$1,234.50" := by decide
example : formatCurrency (some (.dec 1234567 2)) = "$12,345.67" := by decide
example : intString (-12 : Int) = "-12" := by decide

/-- A JavaScript/JSON value as seen by the `unknown` argument of `flattenObject`:
`null`, `undefined`, a boolean, a number, a string, an array, or an object
(an ordered list of key/value fields, as produced by `Object.entries`). -/
inductive JValue where
  | jnull
  | jundef
  | jbool (b : Bool)
  | jnum (n : JNum)
  | jstr (s : String)
  | jarr (elems : List JValue)
  | jobj (fields : List (String × JValue))

/-- The mutable `tokenMap: Record<string, string>` of the source, modelled as
an association list where assignment conses to the front, so that lookup
(`find?` from the head) sees the most recent assignment — exactly the
observable behaviour of JavaScript property assignment plus property read. -/
abbrev TokenMap := List (String × String)

/-- Own-property read of the token map: `isSome` is the own-key part of the
`token in tokens` test, and the value is the own-property read
`tokens[token]`.  The prototype-chain part of `in` (a plain object also
inherits the `Object.prototype` members) is modelled at the use site, in
`resolveMatch`. -/
def lookupToken : TokenMap → String → Option String
  | [], _ => none
  | (k, v) :: rest, tok => if tok = k then some v else lookupToken rest tok

/-- The dotted-path construction `prefix ? prefix + "." + key : key`. -/
def joinPath (pre k : String) : String :=
  if pre = "" then k else pre ++ "." ++ k

/-- JavaScript `String(entry)` for the scalar entries the flattener stores. -/
def jsBoolString (b : Bool) : String := if b then "true" else "false"

/-- The per-entry body of the `for` loop in `flattenObject`: `null`/`undefined`
entries are skipped, non-array objects are recursed into, arrays are skipped,
and scalars are stored under the dotted token via `String(entry)`. -/
def flattenFields : List (String × JValue) → String → TokenMap → TokenMap
  | [], _, m => m
  | (k, entry) :: rest, pre, m =>
    let token := joinPath pre k
    let m1 := match entry with
      | .jnull => m
      | .jundef => m
      | .jobj fields => flattenFields fields token m
      | .jarr _ => m
      | .jbool b => (token, jsBoolString b) :: m
      | .jnum n => (token, jnumToString n) :: m
      | .jstr s => (token, s) :: m
    flattenFields rest pre m1
termination_by fs => sizeOf fs
decreasing_by
  all_goals simp
  all_goals omega

/-- One loop iteration of the flattener, factored out for the proofs. -/
def flattenEntry (k : String) (entry : JValue) (pre : String) (m : TokenMap) :
    TokenMap :=
  let token := joinPath pre k
  match entry with
  | .jnull => m
  | .jundef => m
  | .jobj fields => flattenFields fields token m
  | .jarr _ => m
  | .jbool b => (token, jsBoolString b) :: m
  | .jnum n => (token, jnumToString n) :: m
  | .jstr s => (token, s) :: m

/-- `Object.entries` iteration when the argument of the flattener is an array:
index keys `"0"`, `"1"`, … (reachable only for a top-level array argument;
nested arrays are never recursed into). -/
def flattenElems : List JValue → Nat → String → TokenMap → TokenMap
  | [], _, _, m => m
  | x :: rest, i, pre, m => flattenElems rest (i + 1) pre (flattenEntry (natString i) x pre m)

/-- `flattenObject` of the source: non-objects (and `null`) are returned
unchanged; objects and arrays have their entries iterated. -/
def flattenObject (value : JValue) (pre : String := "") (tokenMap : TokenMap := []) :
    TokenMap :=
  match value with
  | .jobj fields => flattenFields fields pre tokenMap
  | .jarr xs => flattenElems xs 0 pre tokenMap
  | _ => tokenMap

/-- Specification-side description of the additions of the flattener: the dotted
paths of exactly the boolean/number/string leaves reachable through
object-typed ancestors, with their `String(entry)` values, in iteration
order.  `null`/`undefined` leaves and sequence-typed (array) values
contribute nothing. -/
def leavesOfFields : List (String × JValue) → String → List (String × String)
  | [], _ => []
  | (k, entry) :: rest, pre =>
    (match entry with
     | .jnull => []
     | .jundef => []
     | .jobj fields => leavesOfFields fields (joinPath pre k)
     | .jarr _ => []
     | .jbool b => [(joinPath pre k, jsBoolString b)]
     | .jnum n => [(joinPath pre k, jnumToString n)]
     | .jstr s => [(joinPath pre k, s)]) ++ leavesOfFields rest pre
termination_by fs => sizeOf fs
decreasing_by
  all_goals simp
  all_goals omega

/-- Per-entry leaves, factored out for the proofs. -/
def leavesOfEntry (k : String) (entry : JValue) (pre : String) :
    List (String × String) :=
  match entry with
  | .jnull => []
  | .jundef => []
  | .jobj fields => leavesOfFields fields (joinPath pre k)
  | .jarr _ => []
  | .jbool b => [(joinPath pre k, jsBoolString b)]
  | .jnum n => [(joinPath pre k, jnumToString n)]
  | .jstr s => [(joinPath pre k, s)]

/-- Leaves of a top-level array argument (index keys). -/
def leavesOfElems : List JValue → Nat → String → List (String × String)
  | [], _, _ => []
  | x :: rest, i, pre => leavesOfEntry (natString i) x pre ++ leavesOfElems rest (i + 1) pre

/-- All scalar leaves of a value, in the iteration order of the flattener. -/
def scalarLeaves (v : JValue) (pre : String) : List (String × String) :=
  match v with
  | .jobj fields => leavesOfFields fields pre
  | .jarr xs => leavesOfElems xs 0 pre
  | _ => []

theorem flattenFields_cons (k : String) (entry : JValue)
    (rest : List (String × JValue)) (pre : String) (m : TokenMap) :
    flattenFields ((k, entry) :: rest) pre m =
      flattenFields rest pre (flattenEntry k entry pre m) := by
  cases entry <;> simp [flattenFields, flattenEntry]

theorem leavesOfFields_cons (k : String) (entry : JValue)
    (rest : List (String × JValue)) (pre : String) :
    leavesOfFields ((k, entry) :: rest) pre =
      leavesOfEntry k entry pre ++ leavesOfFields rest pre := by
  cases entry <;> simp [leavesOfFields, leavesOfEntry]

theorem flattenFields_eq_leaves (fs : List (String × JValue)) (pre : String)
    (m : TokenMap) :
    flattenFields fs pre m = (leavesOfFields fs pre).reverse ++ m := by
  generalize hn : sizeOf fs = n
  induction n using Nat.strong_induction_on generalizing fs pre m with
  | _ n IH =>
    cases fs with
    | nil => simp [flattenFields, leavesOfFields]
    | cons hd rest =>
      obtain ⟨k, entry⟩ := hd
      rw [flattenFields_cons, leavesOfFields_cons]
      have hrest : sizeOf rest < n := by subst hn; simp
      cases entry with
      | jobj fields =>
        have hfields : sizeOf fields < n := by subst hn; simp; omega
        rw [IH _ hrest rest pre _ rfl]
        simp [flattenEntry, leavesOfEntry, IH _ hfields fields (joinPath pre k) m rfl]
      | jnull => rw [IH _ hrest rest pre _ rfl]; simp [flattenEntry, leavesOfEntry]
      | jundef => rw [IH _ hrest rest pre _ rfl]; simp [flattenEntry, leavesOfEntry]
      | jarr xs => rw [IH _ hrest rest pre _ rfl]; simp [flattenEntry, leavesOfEntry]
      | jbool b => rw [IH _ hrest rest pre _ rfl]; simp [flattenEntry, leavesOfEntry]
      | jnum nv => rw [IH _ hrest rest pre _ rfl]; simp [flattenEntry, leavesOfEntry]
      | jstr s => rw [IH _ hrest rest pre _ rfl]; simp [flattenEntry, leavesOfEntry]

theorem flattenEntry_eq_leaves (k : String) (entry : JValue) (pre : String)
    (m : TokenMap) :
    flattenEntry k entry pre m = (leavesOfEntry k entry pre).reverse ++ m := by
  cases entry <;>
    simp [flattenEntry, leavesOfEntry, flattenFields_eq_leaves]

theorem flattenElems_eq_leaves (xs : List JValue) (i : Nat) (pre : String)
    (m : TokenMap) :
    flattenElems xs i pre m = (leavesOfElems xs i pre).reverse ++ m := by
  induction xs generalizing i m with
  | nil => simp [flattenElems, leavesOfElems]
  | cons x rest ih =>
    simp [flattenElems, leavesOfElems, ih, flattenEntry_eq_leaves]

theorem lookupToken_eq_none_iff (l : TokenMap) (tok : String) :
    lookupToken l tok = none ↔ tok ∉ l.map Prod.fst := by
  induction l with
  | nil => simp only [lookupToken, List.map_nil, List.not_mem_nil, not_false_iff]
  | cons hd rest ih =>
    obtain ⟨k, v⟩ := hd
    by_cases h : tok = k
    · subst h; simp [lookupToken]
    · simp [lookupToken, h, ih]


/-- `document.meta` of the `TemplateData` interface.  Fields declared
optional in the interface (`pageCount?`) are `Option`s; `none` models the
key being absent from the JSON. -/
structure DocumentMeta where
  statementNumber : String
  accountNumber : String
  statementPeriod : String
  statementDate : String
  pageCount : Option String

/-- `document` of the `TemplateData` interface. -/
structure DocumentData where
  title : String
  companyName : String
  companyDescription : String
  supportEmail : String
  brandInitial : String
  meta : DocumentMeta
  qrCode : String
  qrAltText : String
  legalNotice : String
  extendedLegalNotice : String
  pageCount : Option String

/-- `recipient` of the `TemplateData` interface. -/
structure RecipientData where
  addressLines : List String

/-- `balances` of the `TemplateData` interface. -/
structure BalancesData where
  opening : JNum
  withdrawals : JNum
  deposits : JNum
  closingLabel : String
  closing : JNum

/-- One element of `transactions` in the `TemplateData` interface. -/
structure TransactionData where
  postedDate : String
  transactionDate : String
  cardId : String
  details : String
  withdrawals : CurrencyValue
  deposits : CurrencyValue
  balance : JNum

/-- The parsed `data.json` value, typed as the `TemplateData` interface. -/
structure TemplateData where
  document : DocumentData
  recipient : RecipientData
  balances : BalancesData
  transactions : List TransactionData

/-- An optional string field of the JSON object (omitted when absent). -/
def optStrField (k : String) (v : Option String) : List (String × JValue) :=
  match v with
  | some s => [(k, .jstr s)]
  | none => []

/-- An optional number field of the JSON object (omitted when absent). -/
def optNumField (k : String) (v : CurrencyValue) : List (String × JValue) :=
  match v with
  | some n => [(k, .jnum n)]
  | none => []

/-- The JSON view of `document.meta`, as `flattenObject` sees it. -/
def DocumentMeta.toJson (m : DocumentMeta) : JValue :=
  .jobj ([("statementNumber", .jstr m.statementNumber),
    ("accountNumber", .jstr m.accountNumber),
    ("statementPeriod", .jstr m.statementPeriod),
    ("statementDate", .jstr m.statementDate)] ++
    optStrField "pageCount" m.pageCount)

/-- The JSON view of `document`. -/
def DocumentData.toJson (d : DocumentData) : JValue :=
  .jobj ([("title", .jstr d.title),
    ("companyName", .jstr d.companyName),
    ("companyDescription", .jstr d.companyDescription),
    ("supportEmail", .jstr d.supportEmail),
    ("brandInitial", .jstr d.brandInitial),
    ("meta", d.meta.toJson),
    ("qrCode", .jstr d.qrCode),
    ("qrAltText", .jstr d.qrAltText),
    ("legalNotice", .jstr d.legalNotice),
    ("extendedLegalNotice", .jstr d.extendedLegalNotice)] ++
    optStrField "pageCount" d.pageCount)

/-- The JSON view of one transaction. -/
def TransactionData.toJson (t : TransactionData) : JValue :=
  .jobj ([("postedDate", .jstr t.postedDate),
    ("transactionDate", .jstr t.transactionDate),
    ("cardId", .jstr t.cardId),
    ("details", .jstr t.details)] ++
    optNumField "withdrawals" t.withdrawals ++
    optNumField "deposits" t.deposits ++
    [("balance", .jnum t.balance)])

/-- The JSON view of the whole Data Record. -/
def TemplateData.toJson (d : TemplateData) : JValue :=
  .jobj [("document", d.document.toJson),
    ("recipient", .jobj [("addressLines", .jarr (d.recipient.addressLines.map .jstr))]),
    ("balances", .jobj [("opening", .jnum d.balances.opening),
      ("withdrawals", .jnum d.balances.withdrawals),
      ("deposits", .jnum d.balances.deposits),
      ("closingLabel", .jstr d.balances.closingLabel),
      ("closing", .jnum d.balances.closing)]),
    ("transactions", .jarr (d.transactions.map TransactionData.toJson))]

/-- `renderAddress` of the source: one `<p>` fragment per address line,
joined with `""`. -/
def renderAddress (lines : List String) : String :=
  String.join (lines.map (fun line => "\n        <p>" ++ line ++ "</p>\n      "))

/-- One `<tr>` fragment of `renderTransactions` (the non-empty branch). -/
def renderTransactionRow (row : TransactionData) : String :=
  "\n        <tr>\n          <td>" ++ row.postedDate ++
  "</td>\n          <td>" ++ row.transactionDate ++
  "</td>\n          <td>" ++ row.cardId ++
  "</td>\n          <td>" ++ row.details ++
  "</td>\n          <td class=\"numeric\">" ++ formatCurrency row.withdrawals ++
  "</td>\n          <td class=\"numeric\">" ++ formatCurrency row.deposits ++
  "</td>\n          <td class=\"numeric\">" ++ formatCurrency (some row.balance) ++
  "</td>\n        </tr>\n      "

/-- `renderTransactions` of the source: the literal empty-state row when
`items` is empty, else the joined per-row fragments. -/
def renderTransactions (items : List TransactionData) : String :=
  if items.length = 0 then
    "\n      <tr>\n        <td colspan=\"7\" class=\"empty-state\">No transactions recorded.</td>\n      </tr>\n    "
  else
    String.join (items.map renderTransactionRow)

/-- Fuel-driven count of non-overlapping occurrences of `pat` in `s`. -/
def countSubstrGo (pat : List Char) : Nat → List Char → Nat
  | 0, _ => 0
  | fuel + 1, s =>
    match s with
    | [] => 0
    | _ :: rest =>
      if pat.isPrefixOf s then 1 + countSubstrGo pat fuel (s.drop pat.length)
      else countSubstrGo pat fuel rest

/-- Number of non-overlapping occurrences of `pat` in `s`. -/
def countSubstr (pat s : String) : Nat := countSubstrGo pat.data s.data.length s.data

/-- Whether `pat` occurs as a prefix-aligned substring starting at some
position of `s`. -/
def isInfixList (pat : List Char) : List Char → Bool
  | [] => pat.isEmpty
  | c :: rest => pat.isPrefixOf (c :: rest) || isInfixList pat rest

/-- Whether `pat` occurs as a contiguous substring of `s`. -/
def containsSubstr (pat s : String) : Bool := isInfixList pat.data s.data

example : countSubstr "<tr" (renderTransactions []) = 1 := by decide
example : containsSubstr "colspan=\"7\"" (renderTransactions []) = true := by decide

/-- The JavaScript regex character class `\s` (ECMAScript WhiteSpace and
LineTerminator characters). -/
def isJsSpace (c : Char) : Bool :=
  c = ' ' || c = '\t' || c = '\n' || c = '\x0b' || c = '\x0c' || c = '\r' ||
  c = ' ' || c = ' ' || (' ' ≤ c && c ≤ ' ') ||
  c = ' ' || c = ' ' || c = ' ' || c = ' ' ||
  c = '　' || c = '﻿'

/-- The JavaScript regex character class `[\w.-]`: word characters
(ASCII letters, digits, `'_'`), `'.'` and `'-'`. -/
def isTokenChar (c : Char) : Bool :=
  c.isAlpha || c.isDigit || c = '_' || c = '.' || c = '-'

/-- A match of the pattern `{{\s*([\w.-]+)\s*}}` at the head of `s`.
Returns `(matched text, captured token, remainder after the match)`.
Because `\s`, `[\w.-]` and `'{'`/`'}'` are pairwise disjoint character
classes, the greedy matching of the regex with backtracking coincides with this
maximal-munch reading. -/
def matchMarker (s : List Char) : Option (List Char × List Char × List Char) :=
  if s.take 2 = ['{', '{'] then
    let rest := s.drop 2
    let ws1 := rest.takeWhile isJsSpace
    let r1 := rest.dropWhile isJsSpace
    let tok := r1.takeWhile isTokenChar
    let r2 := r1.dropWhile isTokenChar
    if tok = [] then none
    else
      let ws2 := r2.takeWhile isJsSpace
      let r3 := r2.dropWhile isJsSpace
      if r3.take 2 = ['}', '}'] then
        some ('{' :: '{' :: (ws1 ++ tok ++ ws2 ++ ['}', '}']), tok, r3.drop 2)
      else none
  else none

/-- The property names every plain object inherits from `Object.prototype`
(ECMA-262 Object.prototype members plus the Annex B legacy accessors).
The token map is a plain object built by object literals and spread, so
`token in tokens` is `true` for these names even when they are not own
keys, and `tokens[token]` then reads the inherited member.  All of these
names match the capture class `[\w.-]+`. -/
def objectPrototypeNames : List String :=
  ["constructor", "hasOwnProperty", "isPrototypeOf", "propertyIsEnumerable",
   "toLocaleString", "toString", "valueOf", "__proto__",
   "__defineGetter__", "__defineSetter__", "__lookupGetter__", "__lookupSetter__"]

/-- The string coercion applied by `String.prototype.replace` to the
inherited member read through `tokens[token]` for a non-own inherited name:
`__proto__` reads the prototype object itself (coercing to
`"[object Object]"`), `constructor` reads the `Object` constructor, and the
rest are the native methods.  The exact native-function text is
host-defined (the Node/V8 form is used here); no theorem depends on more
than these strings being what the callback substitutes, and none of them
can equal a `{{...}}` marker text. -/
def protoMemberString (tok : String) : String :=
  if tok = "__proto__" then "[object Object]"
  else if tok = "constructor" then "function Object() { [native code] }"
  else "function " ++ tok ++ "() { [native code] }"

/-- The body of the `.replace` callback, `token in tokens ?
tokens[token] : match`: an own key is replaced by its own value; a non-own
token that is an inherited `Object.prototype` name still passes the `in`
test and is replaced by the string coercion of the inherited member; any
other unmapped token yields the original matched text. -/
def resolveMatch (tokens : TokenMap) (m tok : List Char) : List Char :=
  match lookupToken tokens (String.mk tok) with
  | some v => v.data
  | none =>
    if String.mk tok ∈ objectPrototypeNames then (protoMemberString (String.mk tok)).data
    else m

/-- Fuel-driven left-to-right global-replace scan: find the leftmost match,
emit its resolution, continue after the match (never inside the emitted
replacement); on no match at this position, emit the character and advance
by one. -/
def replaceTokensGo (tokens : TokenMap) : Nat → List Char → List Char
  | 0, s => s
  | _ + 1, [] => []
  | fuel + 1, c :: rest =>
    match matchMarker (c :: rest) with
    | some (m, tok, after) => resolveMatch tokens m tok ++ replaceTokensGo tokens fuel after
    | none => c :: replaceTokensGo tokens fuel rest

/-- `template.replace(/{{\s*([\w.-]+)\s*}}/g, ...)` on character lists. -/
def replaceTokensL (tokens : TokenMap) (s : List Char) : List Char :=
  replaceTokensGo tokens s.length s

/-- `replaceTokens` of the source. -/
def replaceTokens (template : String) (tokens : TokenMap) : String :=
  String.mk (replaceTokensL tokens template.data)

/-- One segment of the template as the global-replace scan sees it: a
literal character, or a whole placeholder marker with its captured token. -/
inductive Seg where
  | lit (c : Char)
  | hole (matched : List Char) (tok : List Char)
deriving DecidableEq

/-- Fuel-driven segmentation of a template (same scan as `replaceTokensGo`,
without resolution). -/
def scanGo : Nat → List Char → List Seg
  | 0, _ => []
  | _ + 1, [] => []
  | fuel + 1, c :: rest =>
    match matchMarker (c :: rest) with
    | some (m, tok, after) => .hole m tok :: scanGo fuel after
    | none => .lit c :: scanGo fuel rest

/-- Segmentation of a template into literal characters and markers. -/
def scanTemplate (s : List Char) : List Seg := scanGo s.length s

/-- Resolution of one segment: literals are copied; a marker is replaced by
its mapped value if the token is present, else left as its matched text. -/
def resolveSeg (tokens : TokenMap) : Seg → List Char
  | .lit c => [c]
  | .hole m tok => resolveMatch tokens m tok

theorem length_dropWhile_le (p : Char → Bool) (l : List Char) :
    (l.dropWhile p).length ≤ l.length := by
  induction l with
  | nil => simp
  | cons c rest ih =>
    rw [List.dropWhile]
    cases p c <;> simp
    omega

theorem length_ge_of_take_two {l : List Char} {a b : Char}
    (h : l.take 2 = [a, b]) : 2 ≤ l.length := by
  have := congrArg List.length h
  simp at this
  omega

theorem matchMarker_after_length {s m tok after : List Char}
    (h : matchMarker s = some (m, tok, after)) : after.length < s.length := by
  simp only [matchMarker] at h
  split at h
  case isTrue h2 =>
    split at h
    case isTrue => exact absurd h (by simp)
    case isFalse =>
      split at h
      case isTrue h3 =>
        have hs2 : 2 ≤ s.length := length_ge_of_take_two h2
        have h1 : ((s.drop 2).dropWhile isJsSpace).length ≤ s.length - 2 := by
          have := length_dropWhile_le isJsSpace (s.drop 2)
          simp at this
          omega
        have hwa : (((s.drop 2).dropWhile isJsSpace).dropWhile isTokenChar).length ≤
            s.length - 2 :=
          le_trans (length_dropWhile_le _ _) h1
        have hwb : ((((s.drop 2).dropWhile isJsSpace).dropWhile isTokenChar).dropWhile
            isJsSpace).length ≤ s.length - 2 :=
          le_trans (length_dropWhile_le _ _) hwa
        have h32 : 2 ≤ ((((s.drop 2).dropWhile isJsSpace).dropWhile
            isTokenChar).dropWhile isJsSpace).length := length_ge_of_take_two h3
        cases h
        simp
        omega
      case isFalse => exact absurd h (by simp)
  case isFalse => exact absurd h (by simp)

theorem matchMarker_matched_shape {s m tok after : List Char}
    (h : matchMarker s = some (m, tok, after)) :
    ∃ tl, m = '{' :: '{' :: tl := by
  simp only [matchMarker] at h
  split at h
  case isTrue =>
    split at h
    case isTrue => exact absurd h (by simp)
    case isFalse =>
      split at h
      case isTrue =>
        cases h
        exact ⟨_, rfl⟩
      case isFalse => exact absurd h (by simp)
  case isFalse => exact absurd h (by simp)

theorem replaceTokensGo_fuel (tokens : TokenMap) :
    ∀ f1 f2 s, s.length ≤ f1 → s.length ≤ f2 →
      replaceTokensGo tokens f1 s = replaceTokensGo tokens f2 s := by
  intro f1
  induction f1 with
  | zero =>
    intro f2 s h1 h2
    have : s = [] := by cases s <;> simp_all
    subst this
    cases f2 <;> simp [replaceTokensGo]
  | succ k1 ih =>
    intro f2 s h1 h2
    cases s with
    | nil => cases f2 <;> simp [replaceTokensGo]
    | cons c rest =>
      cases f2 with
      | zero => simp at h2
      | succ k2 =>
        simp only [replaceTokensGo]
        cases hmk : matchMarker (c :: rest) with
        | some val =>
          obtain ⟨m, tok, after⟩ := val
          have hal := matchMarker_after_length hmk
          simp only [hmk]
          congr 1
          exact ih k2 after (by simp at h1 hal ⊢; omega) (by simp at h2 hal ⊢; omega)
        | none =>
          simp only [hmk]
          congr 1
          exact ih k2 rest (by simp at h1 ⊢; omega) (by simp at h2 ⊢; omega)

theorem replaceTokensL_step_hole (tokens : TokenMap) {s m tok after : List Char}
    (h : matchMarker s = some (m, tok, after)) :
    replaceTokensL tokens s = resolveMatch tokens m tok ++ replaceTokensL tokens after := by
  have hal := matchMarker_after_length h
  cases s with
  | nil => exact absurd h (by simp [matchMarker])
  | cons c rest =>
    show replaceTokensGo tokens (rest.length + 1) (c :: rest) = _
    simp only [replaceTokensGo, h]
    congr 1
    exact replaceTokensGo_fuel tokens rest.length after.length after
      (by simp at hal ⊢; omega) le_rfl

theorem replaceTokensGo_eq_scanGo (tokens : TokenMap) :
    ∀ fuel s, s.length ≤ fuel →
      replaceTokensGo tokens fuel s = ((scanGo fuel s).map (resolveSeg tokens)).flatten := by
  intro fuel
  induction fuel with
  | zero =>
    intro s hs
    have : s = [] := by cases s <;> simp_all
    subst this
    simp [replaceTokensGo, scanGo]
  | succ k ih =>
    intro s hs
    cases s with
    | nil => simp [replaceTokensGo, scanGo]
    | cons c rest =>
      simp only [replaceTokensGo, scanGo]
      cases hmk : matchMarker (c :: rest) with
      | some val =>
        obtain ⟨m, tok, after⟩ := val
        have hal := matchMarker_after_length hmk
        simp only [hmk, List.map_cons, List.flatten_cons]
        rw [ih after (by simp at hs hal ⊢; omega)]
        simp [resolveSeg]
      | none =>
        simp only [hmk, List.map_cons, List.flatten_cons]
        rw [ih rest (by simp at hs ⊢; omega)]
        simp [resolveSeg]

theorem replaceTokensL_eq_scan (tokens : TokenMap) (s : List Char) :
    replaceTokensL tokens s = ((scanTemplate s).map (resolveSeg tokens)).flatten :=
  replaceTokensGo_eq_scanGo tokens s.length s le_rfl

theorem scanGo_hole_shape :
    ∀ fuel s m tok, Seg.hole m tok ∈ scanGo fuel s → ∃ tl, m = '{' :: '{' :: tl := by
  intro fuel
  induction fuel with
  | zero => intro s m tok hmem; simp [scanGo] at hmem
  | succ k ih =>
    intro s m tok hmem
    cases s with
    | nil => simp [scanGo] at hmem
    | cons c rest =>
      rw [scanGo] at hmem
      cases hmk : matchMarker (c :: rest) with
      | some val =>
        obtain ⟨m2, tok2, after⟩ := val
        rw [hmk] at hmem
        rcases List.mem_cons.mp hmem with heq | hmem2
        · obtain ⟨tl, htl⟩ := matchMarker_matched_shape hmk
          cases heq
          exact ⟨tl, htl⟩
        · exact ih after m tok hmem2
      | none =>
        rw [hmk] at hmem
        rcases List.mem_cons.mp hmem with heq | hmem2
        · cases heq
        · exact ih rest m tok hmem2

theorem scanTemplate_hole_shape {s m tok : List Char}
    (h : Seg.hole m tok ∈ scanTemplate s) : ∃ tl, m = '{' :: '{' :: tl :=
  scanGo_hole_shape s.length s m tok h

example : replaceTokens "Hi {{ name }}!" [("name", "Bob")] = "Hi Bob!" := by decide
example : replaceTokens "{{a}}" [("a", "{{b}}"), ("b", "X")] = "{{b}}" := by decide
example : replaceTokens "x{{q}}y" [("a", "1")] = "x{{q}}y" := by decide
example : replaceTokens "{{}} {{a-b.c}}" [("a-b.c", "v")] = "{{}} v" := by decide

/-- `TemplateRenderOptions` of the source; `pageCount?: number | null` is an
`Option Int` (`none` for both `undefined` and `null`, which the code treats
identically). -/
structure TemplateRenderOptions where
  isSinglePage : Bool
  pageCount : Option Int := none

/-- `buildTemplateReplacements` of the source: spread of the flattened Data
Record followed by the synthetic assignments, in source order (each
JavaScript assignment is a cons, and lookup sees the most recent one).
`?? ""` on the non-optional string fields of `document.meta` is the
identity and is dropped; on the optional `pageCount` fields it is the
`Option` match. -/
def buildTemplateReplacements (data : TemplateData)
    (options : TemplateRenderOptions) : TokenMap :=
  let r0 := flattenObject data.toJson "" []
  let r1 := ("recipient.addressHtml", renderAddress data.recipient.addressLines) :: r0
  let r2 := ("transactions.rows", renderTransactions data.transactions) :: r1
  let r3 := ("document.singlePageBodyClass",
    if options.isSinglePage then "document--single" else "") :: r2
  let r4 := ("document.isSinglePage",
    if options.isSinglePage then "true" else "false") :: r3
  let r5 := ("document.pageCount",
    match options.pageCount with
    | some n => intString n
    | none => "") :: r4
  let r6 := ("document.statementNumber", data.document.meta.statementNumber) :: r5
  let r7 := ("document.accountNumber", data.document.meta.accountNumber) :: r6
  let r8 := ("document.statementPeriod", data.document.meta.statementPeriod) :: r7
  let r9 := ("document.statementDate", data.document.meta.statementDate) :: r8
  let r10 := ("document.pageCount",
    match data.document.pageCount with
    | some s => s
    | none => data.document.meta.pageCount.getD "") :: r9
  let r11 := ("balances.opening", formatCurrency (some data.balances.opening)) :: r10
  let r12 := ("balances.withdrawals", formatCurrency (some data.balances.withdrawals)) :: r11
  let r13 := ("balances.deposits", formatCurrency (some data.balances.deposits)) :: r12
  let r14 := ("balances.closing", formatCurrency (some data.balances.closing)) :: r13
  ("balances.closingLabel", data.balances.closingLabel) :: r14

/-- `renderTemplate` of the source. -/
def renderTemplate (template : String) (data : TemplateData)
    (options : TemplateRenderOptions) : String :=
  replaceTokens template (buildTemplateReplacements data options)

/-- Outcome of the pure dataflow of `generateHtml` between reading the
inputs and the final persistence: the provisional render, the computed
single-page flag and final options, the final render, and the sequence of
contents written to `dist/output.html` (the provisional write always
happens; the second write happens only when the final bytes differ). -/
structure ControllerOutcome where
  initialHtml : String
  isSinglePage : Bool
  finalOptions : TemplateRenderOptions
  finalHtml : String
  writes : List String

/-- The pagination feedback controller: the pure core of `generateHtml`,
with the result of `detectPageCount` (an external subprocess probe) passed
in as `probe` (`some n` when the probe printed the integer `n`, `none` on
any probe failure). -/
def generateHtmlCore (template : String) (data : TemplateData)
    (probe : Option Int) : ControllerOutcome :=
  let initialHtml := renderTemplate template data ⟨false, none⟩
  let isSinglePage := match probe with
    | some n => n == 1
    | none => false
  let finalOptions : TemplateRenderOptions := ⟨isSinglePage, probe⟩
  let html := renderTemplate template data finalOptions
  { initialHtml := initialHtml
    isSinglePage := isSinglePage
    finalOptions := finalOptions
    finalHtml := html
    writes := if html = initialHtml then [initialHtml] else [initialHtml, html] }

/-- The error object `spawnSync` may report (`ErrnoException`): its `code`
(e.g. `"ENOENT"` when the executable was not found) and message. -/
structure SpawnErrObj where
  code : String
  message : String
deriving DecidableEq, Repr

/-- The observable part of a `spawnSync` result: `error` is set when the
process could not be spawned (or another i/o error occurred); `status` is
the exit status when the process ran (`none` when it did not). -/
structure SpawnResult where
  error : Option SpawnErrObj
  status : Option Int
deriving DecidableEq, Repr

/-- `CommandCandidate` of the source. -/
structure CommandCandidate where
  command : String
  args : List String
  description : String
deriving DecidableEq, Repr

/-- One recorded attempt (`attempts.push({description, error, status})`). -/
structure AttemptRecord where
  description : String
  error : Option SpawnErrObj
  status : Option Int
deriving DecidableEq, Repr

/-- The attempt record pushed for a failed candidate. -/
def attemptOf (c : CommandCandidate) (r : SpawnResult) : AttemptRecord :=
  ⟨c.description, r.error, r.status⟩

/-- The success test `!result.error && result.status === 0`. -/
def spawnOk (r : SpawnResult) : Bool :=
  r.error.isNone && r.status == some 0

/-- The candidate loop of `runWeasyPrint`, with each candidate paired with
its `spawnSync` outcome: return on the first success; otherwise record the
attempt, and `break` out of the loop exactly when the spawn reported an
error whose code is not `"ENOENT"`; when the loop ends the aggregated
attempt list is thrown. -/
def runCandidates :
    List (CommandCandidate × SpawnResult) → List AttemptRecord →
      Except (List AttemptRecord) Unit
  | [], attempts => .error attempts
  | (c, r) :: rest, attempts =>
    if spawnOk r then .ok ()
    else
      let attempts2 := attempts ++ [attemptOf c r]
      match r.error with
      | some e => if e.code ≠ "ENOENT" then .error attempts2 else runCandidates rest attempts2
      | none => runCandidates rest attempts2

/-- `runWeasyPrint` of the source, over the resolved candidate list zipped
with the spawn outcome. -/
def runWeasyPrint (runs : List (CommandCandidate × SpawnResult)) :
    Except (List AttemptRecord) Unit :=
  runCandidates runs []

/-- A failed attempt that does not stop the iteration: the spawn either
reported no error (the process ran and exited non-zero) or reported the
executable-not-found error `ENOENT`. -/
def softFailure (r : SpawnResult) : Prop :=
  spawnOk r = false ∧ (r.error = none ∨ ∃ e, r.error = some e ∧ e.code = "ENOENT")

instance (r : SpawnResult) : Decidable (softFailure r) := by
  unfold softFailure
  infer_instance

theorem runCandidates_soft_all (runs : List (CommandCandidate × SpawnResult)) :
    (∀ p ∈ runs, softFailure p.2) → ∀ acc,
      runCandidates runs acc = .error (acc ++ runs.map (fun p => attemptOf p.1 p.2)) := by
  induction runs with
  | nil => intro _ acc; simp [runCandidates]
  | cons hd rest ih =>
    intro hall acc
    obtain ⟨c, r⟩ := hd
    have hsoft : softFailure r := hall (c, r) (by simp)
    obtain ⟨hok, herr⟩ := hsoft
    rw [runCandidates]
    rw [if_neg (by simp [hok])]
    rcases herr with hnone | ⟨e, hsome, hcode⟩
    · simp only [hnone]
      simp [ih (fun p hp => hall p (List.mem_cons_of_mem _ hp))]
    · simp only [hsome, hcode]
      simp [ih (fun p hp => hall p (List.mem_cons_of_mem _ hp))]

theorem digitChar_ne_dollar (d : Nat) : digitChar d ≠ '$' := by
  unfold digitChar
  have h : d % 10 < 10 := Nat.mod_lt _ (by omega)
  revert h
  generalize d % 10 = k
  intro h
  interval_cases k <;> decide

theorem natDigitsGo_chars :
    ∀ fuel n acc c, c ∈ natDigitsGo fuel n acc → (∃ d, c = digitChar d) ∨ c ∈ acc := by
  intro fuel
  induction fuel with
  | zero =>
    intro n acc c h
    rw [natDigitsGo] at h
    exact Or.inr h
  | succ k ih =>
    intro n acc c h
    rw [natDigitsGo] at h
    split at h
    · rcases List.mem_cons.mp h with h1 | h2
      · exact Or.inl ⟨n, h1⟩
      · exact Or.inr h2
    · rcases ih (n / 10) (digitChar (n % 10) :: acc) c h with h1 | h2
      · exact Or.inl h1
      · rcases List.mem_cons.mp h2 with h3 | h4
        · exact Or.inl ⟨n % 10, h3⟩
        · exact Or.inr h4

theorem natDigits_ne_dollar {n : Nat} {c : Char} (h : c ∈ natDigits n) : c ≠ '$' := by
  rcases natDigitsGo_chars _ _ _ _ h with ⟨d, rfl⟩ | h2
  · exact digitChar_ne_dollar d
  · simp at h2

theorem mem_of_mem_dropWhile {p : Char → Bool} {l : List Char} {c : Char}
    (h : c ∈ l.dropWhile p) : c ∈ l := by
  induction l with
  | nil => simp at h
  | cons a rest ih =>
    rw [List.dropWhile] at h
    cases hp : p a
    · rw [hp] at h
      exact h
    · rw [hp] at h
      exact List.mem_cons_of_mem _ (ih h)

theorem mem_of_mem_stripTrailingZeros {l : List Char} {c : Char}
    (h : c ∈ stripTrailingZeros l) : c ∈ l := by
  unfold stripTrailingZeros at h
  rw [List.mem_reverse] at h
  exact List.mem_reverse.mp (mem_of_mem_dropWhile h)

theorem mem_padLeftZeros {k : Nat} {l : List Char} {c : Char}
    (h : c ∈ padLeftZeros k l) : c = '0' ∨ c ∈ l := by
  unfold padLeftZeros at h
  rcases List.mem_append.mp h with h1 | h2
  · exact Or.inl (List.eq_of_mem_replicate h1)
  · exact Or.inr h2

theorem dollar_not_mem_jnumToString (n : JNum) : '$' ∉ (jnumToString n).data := by
  cases n with
  | nan => decide
  | dec m e =>
    show '$' ∉ (if m < 0 then ['-'] else []) ++ natDigits (m.natAbs / 10 ^ e) ++
      (if stripTrailingZeros (padLeftZeros e (natDigits (m.natAbs % 10 ^ e))) = [] then []
       else '.' :: stripTrailingZeros (padLeftZeros e (natDigits (m.natAbs % 10 ^ e))))
    intro hmem
    rcases List.mem_append.mp hmem with h12 | h3
    · rcases List.mem_append.mp h12 with h1 | h2
      · split at h1 <;> simp at h1
      · exact natDigits_ne_dollar h2 rfl
    · split at h3
      · simp at h3
      · rcases List.mem_cons.mp h3 with h4 | h5
        · simp at h4
        · rcases mem_padLeftZeros (mem_of_mem_stripTrailingZeros h5) with h6 | h7
          · simp at h6
          · exact natDigits_ne_dollar h7 rfl

theorem dollar_mem_formatCurrency (m : Int) (e : Nat) :
    '$' ∈ (formatCurrency (some (.dec m e))).data := by
  show '$' ∈ (if roundHalfAway (m * 100) (10 ^ e) < 0 then ['-'] else []) ++
    '$' :: (groupThousands (natDigits ((roundHalfAway (m * 100) (10 ^ e)).natAbs / 100)) ++
      '.' :: padLeftZeros 2 (natDigits ((roundHalfAway (m * 100) (10 ^ e)).natAbs % 100)))
  exact List.mem_append_right _ (List.mem_cons_self _ _)

theorem formatCurrency_ne_jnumToString (n : JNum) :
    formatCurrency (some n) ≠ jnumToString n := by
  cases n with
  | nan => decide
  | dec m e =>
    intro heq
    have h1 := dollar_mem_formatCurrency m e
    rw [heq] at h1
    exact dollar_not_mem_jnumToString _ h1

/-- A concrete Data Record used by the witnesses and counterexamples: its
`document.pageCount` carries the fallback string `"9"`. -/
def sampleMeta : DocumentMeta :=
  { statementNumber := "SN-1"
    accountNumber := "AC-1"
    statementPeriod := "Jan 2024"
    statementDate := "2024-01-31"
    pageCount := none }

/-- Concrete `document` fixture. -/
def sampleDocument : DocumentData :=
  { title := "Statement"
    companyName := "Acme"
    companyDescription := "Bank"
    supportEmail := "help@acme.test"
    brandInitial := "A"
    meta := sampleMeta
    qrCode := "qr"
    qrAltText := "alt"
    legalNotice := "legal"
    extendedLegalNotice := "extended"
    pageCount := some "9" }

/-- Concrete Data Record fixture. -/
def sampleData : TemplateData :=
  { document := sampleDocument
    recipient := { addressLines := ["1 Main St"] }
    balances :=
      { opening := .dec 12345 1
        withdrawals := .dec 100 0
        deposits := .dec 200 0
        closingLabel := "Closing"
        closing := .dec 5000 2 }
    transactions := [] }

/-- Concrete gateway fixtures. -/
def candWeasy : CommandCandidate :=
  { command := "weasyprint", args := ["in.html", "out.pdf"], description := "weasyprint" }

/-- Second gateway fixture. -/
def candPy : CommandCandidate :=
  { command := "py", args := ["-m", "weasyprint", "in.html", "out.pdf"],
    description := "py -m weasyprint" }

/-- A completed run with non-zero exit status (no spawn error). -/
def nonZeroExit : SpawnResult := { error := none, status := some 1 }

/-- A successful run. -/
def okExit : SpawnResult := { error := none, status := some 0 }

/-- A spawn failure with the executable-not-found code. -/
def enoentFailure : SpawnResult :=
  { error := some { code := "ENOENT", message := "spawn weasyprint ENOENT" }, status := none }

theorem flattenObject_eq_scalarLeaves (v : JValue) (pre : String) (m : TokenMap) :
    flattenObject v pre m = (scalarLeaves v pre).reverse ++ m := by
  cases v with
  | jobj fields => exact flattenFields_eq_leaves fields pre m
  | jarr xs => exact flattenElems_eq_leaves xs 0 pre m
  | jnull => simp [flattenObject, scalarLeaves]
  | jundef => simp [flattenObject, scalarLeaves]
  | jbool b => simp [flattenObject, scalarLeaves]
  | jnum n => simp [flattenObject, scalarLeaves]
  | jstr s => simp [flattenObject, scalarLeaves]

/-- C1: the claim says the `document.pageCount` token of the final render equals
the string of the detected page count whenever the probe returned an
integer.  The code violates this: the probe-derived assignment (line 274)
is unconditionally overwritten by the Data-Record fallback assignment
(line 286).  At a concrete record whose fallback is `"9"` and a successful
probe of `2` pages, the mapping of the final render still carries `"9"`,
not `String(2) = "2"`. -/
theorem pageCount_token_ignores_probe :
    (generateHtmlCore "t" sampleData (some 2)).finalOptions.pageCount = some 2 ∧
    lookupToken
      (buildTemplateReplacements sampleData
        (generateHtmlCore "t" sampleData (some 2)).finalOptions)
      "document.pageCount" = some "9" ∧
    intString 2 = "2" ∧ ("9" : String) ≠ "2" := by
  refine ⟨rfl, by decide, by decide, by decide⟩

/-- C2 counterexample: the claim says that after a failure other than
executable-not-found — explicitly including a non-zero exit status — the
gateway stops iterating and does not try weaker fallbacks.  In the code the
loop only breaks when `result.error` is present with a non-`ENOENT` code; a
completed run with exit status 1 (and no spawn error) falls through, and
the next candidate is tried and can succeed. -/
theorem runWeasyPrint_continues_after_nonzero_exit :
    runWeasyPrint [(candWeasy, nonZeroExit), (candPy, okExit)] = .ok () ∧
    runWeasyPrint [(candWeasy, nonZeroExit), (candPy, okExit)] ≠
      .error [attemptOf candWeasy nonZeroExit] := by
  constructor
  · rfl
  · intro h
    rw [show runWeasyPrint [(candWeasy, nonZeroExit), (candPy, okExit)] = .ok () from rfl] at h
    exact Except.noConfusion h

/-- C2 (amended): candidates are tried in order; an executable-not-found
spawn error (`ENOENT`) and a completed run with a non-zero exit status both
proceed to the next candidate; iteration stops immediately exactly when
spawning failed with a non-`ENOENT` error; and when every attempt is such a
soft failure the gateway fails with an aggregated error listing every
attempted candidate. -/
theorem runWeasyPrint_fallback_policy :
    (∀ c r rest acc, spawnOk r = true →
      runCandidates ((c, r) :: rest) acc = .ok ()) ∧
    (∀ c r rest acc, spawnOk r = false → r.error = none →
      runCandidates ((c, r) :: rest) acc = runCandidates rest (acc ++ [attemptOf c r])) ∧
    (∀ c r rest acc e, spawnOk r = false → r.error = some e → e.code = "ENOENT" →
      runCandidates ((c, r) :: rest) acc = runCandidates rest (acc ++ [attemptOf c r])) ∧
    (∀ c r rest acc e, r.error = some e → e.code ≠ "ENOENT" →
      runCandidates ((c, r) :: rest) acc = .error (acc ++ [attemptOf c r])) ∧
    (∀ runs, (∀ p ∈ runs, softFailure p.2) →
      runWeasyPrint runs = .error (runs.map (fun p => attemptOf p.1 p.2))) := by
  refine ⟨?_, ?_, ?_, ?_, ?_⟩
  · intro c r rest acc hok
    simp [runCandidates, hok]
  · intro c r rest acc hok herr
    simp [runCandidates, hok, herr]
  · intro c r rest acc e hok herr hcode
    simp [runCandidates, hok, herr, hcode]
  · intro c r rest acc e herr hcode
    have hok : spawnOk r = false := by simp [spawnOk, herr]
    simp [runCandidates, hok, herr, hcode]
  · intro runs hall
    rw [runWeasyPrint, runCandidates_soft_all runs hall []]
    simp

/-- C2 witness: a concrete run through the amended policy — the executable of the first
candidate is not found (`ENOENT`), the second succeeds. -/
theorem runWeasyPrint_fallback_policy_witness :
    runCandidates [(candWeasy, enoentFailure), (candPy, okExit)] [] = .ok () := by
  have h := runWeasyPrint_fallback_policy
  rw [h.2.2.1 candWeasy enoentFailure _ []
    { code := "ENOENT", message := "spawn weasyprint ENOENT" }
    (by decide) (by decide) (by decide)]
  exact h.1 candPy okExit [] _ (by decide)

/-- C3 counterexample: the claim says every marker whose captured path is
absent from the mapping is left verbatim, for every template and mapping.
At template `"{{toString}}"` and the empty mapping the path `toString` is
absent from the Token Mapping, yet `token in tokens` is `true` through the
prototype chain of the plain-object map, so the marker is substituted with
the string coercion of the inherited `Object.prototype.toString` — not
left verbatim. -/
theorem replaceTokens_prototype_leak :
    replaceTokens "{{toString}}" [] = "function toString() { [native code] }" ∧
    replaceTokens "{{toString}}" [] ≠ "{{toString}}" := by
  refine ⟨by decide, by decide⟩

/-- C3 (amended): pass-through on miss, except for the property names a
plain object inherits from `Object.prototype` — in the scan of any
template, a placeholder marker whose captured token is absent from the
token mapping resolves to its own matched text (byte-identical, and never
the empty string) when the token is not an inherited name, and to the
string coercion of the inherited member when it is; the substitution
output is exactly the concatenation of the per-segment resolutions
(substitution is a total function: it never throws). -/
theorem replaceTokens_passthrough_on_miss (tmpl : List Char) (tokens : TokenMap)
    (m tok : List Char) (hmem : Seg.hole m tok ∈ scanTemplate tmpl)
    (hmiss : lookupToken tokens (String.mk tok) = none) :
    (String.mk tok ∉ objectPrototypeNames →
      resolveSeg tokens (Seg.hole m tok) = m ∧ m ≠ []) ∧
    (String.mk tok ∈ objectPrototypeNames →
      resolveSeg tokens (Seg.hole m tok) = (protoMemberString (String.mk tok)).data) ∧
    replaceTokensL tokens tmpl = ((scanTemplate tmpl).map (resolveSeg tokens)).flatten := by
  refine ⟨fun hout => ⟨by simp [resolveSeg, resolveMatch, hmiss, hout], ?_⟩,
    fun hin => by simp [resolveSeg, resolveMatch, hmiss, hin],
    replaceTokensL_eq_scan tokens tmpl⟩
  obtain ⟨tl, htl⟩ := scanTemplate_hole_shape hmem
  simp [htl]

/-- C3 witness: template `"x{{q}}y"` with a mapping that lacks `"q"`
(`"q"` is not an inherited prototype name). -/
theorem replaceTokens_passthrough_on_miss_witness :
    ("q" : String) ∉ objectPrototypeNames ∧
    resolveSeg [("a", "1")] (Seg.hole "{{q}}".data "q".data) = "{{q}}".data ∧
    "{{q}}".data ≠ [] ∧
    replaceTokensL [("a", "1")] "x{{q}}y".data =
      ((scanTemplate "x{{q}}y".data).map (resolveSeg [("a", "1")])).flatten := by
  have h := replaceTokens_passthrough_on_miss "x{{q}}y".data [("a", "1")]
    "{{q}}".data "q".data (by decide) (by decide)
  have hq : (String.mk "q".data) ∉ objectPrototypeNames := by decide
  exact ⟨by decide, (h.1 hq).1, (h.1 hq).2, h.2.2⟩

/-- C4: substitution is single-pass and non-recursive — when the marker at
the scan position has a mapped token, the engine emits the mapped value
verbatim and resumes scanning at the remainder of the original template,
so a substituted value is never itself rescanned, even if it contains
`{{...}}` text. -/
theorem replaceTokens_single_pass (tokens : TokenMap) (s m tok after : List Char)
    (v : String) (hm : matchMarker s = some (m, tok, after))
    (hv : lookupToken tokens (String.mk tok) = some v) :
    replaceTokensL tokens s = v.data ++ replaceTokensL tokens after := by
  rw [replaceTokensL_step_hole tokens hm]
  simp [resolveMatch, hv]

/-- C4 witness: the value substituted for `{{a}}` is itself marker text
`{{b}}` with `b` mapped, yet the output keeps `{{b}}` unsubstituted. -/
theorem replaceTokens_single_pass_witness :
    replaceTokensL [("a", "{{b}}"), ("b", "X")] "{{a}}".data =
      "{{b}}".data ++ replaceTokensL [("a", "{{b}}"), ("b", "X")] [] ∧
    replaceTokens "{{a}}" [("a", "{{b}}"), ("b", "X")] = "{{b}}" := by
  refine ⟨replaceTokens_single_pass [("a", "{{b}}"), ("b", "X")] "{{a}}".data
    "{{a}}".data "a".data [] "{{b}}" (by decide) (by decide), by decide⟩

/-- C5: the single-page flag of the final render is `true` exactly for a
successful probe reporting exactly 1: probe `1` gives `true`, probe `2`
gives `false`, probe failure gives `false`, and in general a probe result
`n` gives `n == 1`. -/
theorem generateHtmlCore_isSinglePage (template : String) (data : TemplateData) :
    (generateHtmlCore template data (some 1)).isSinglePage = true ∧
    (generateHtmlCore template data (some 2)).isSinglePage = false ∧
    (generateHtmlCore template data none).isSinglePage = false ∧
    ∀ n : Int, (generateHtmlCore template data (some n)).isSinglePage = (n == 1) :=
  ⟨rfl, rfl, rfl, fun _ => rfl⟩

/-- C6: the flattener adds exactly the stringified boolean/number/string
leaves reachable through object-typed ancestors: `null`/`undefined`-valued
keys and sequence-typed (array) values contribute no entry at all (omitted,
not mapped to `""`), and a token is unmapped precisely when it is not such
a scalar-leaf path. -/
theorem flattenObject_omits_null_and_sequences (v : JValue) (pre : String)
    (m : TokenMap) :
    flattenObject v pre m = (scalarLeaves v pre).reverse ++ m ∧
    ∀ tok, lookupToken (flattenObject v pre []) tok = none ↔
      tok ∉ (scalarLeaves v pre).map Prod.fst := by
  refine ⟨flattenObject_eq_scalarLeaves v pre m, fun tok => ?_⟩
  rw [flattenObject_eq_scalarLeaves v pre [], List.append_nil,
    lookupToken_eq_none_iff]
  simp

/-- C7: idempotent write discipline of the controller — the provisional
output is always written; the second write happens exactly when the final
bytes of the final render differ from the bytes of the provisional render, so when they are
equal the file is written only once (no redundant overwrite). -/
theorem generateHtmlCore_write_discipline (template : String)
    (data : TemplateData) (probe : Option Int) :
    ((generateHtmlCore template data probe).finalHtml =
        (generateHtmlCore template data probe).initialHtml →
      (generateHtmlCore template data probe).writes =
        [(generateHtmlCore template data probe).initialHtml]) ∧
    ((generateHtmlCore template data probe).finalHtml ≠
        (generateHtmlCore template data probe).initialHtml →
      (generateHtmlCore template data probe).writes =
        [(generateHtmlCore template data probe).initialHtml,
          (generateHtmlCore template data probe).finalHtml]) := by
  constructor
  · intro h
    simp only [generateHtmlCore] at h ⊢
    rw [if_pos h]
  · intro h
    simp only [generateHtmlCore] at h ⊢
    rw [if_neg h]

/-- C7 witness: a template whose only pagination-dependent token renders
identically in both passes under a multi-page probe, so the controller
writes the file exactly once. -/
theorem generateHtmlCore_write_discipline_witness :
    (generateHtmlCore "A{{document.isSinglePage}}B" sampleData (some 3)).writes =
      [(generateHtmlCore "A{{document.isSinglePage}}B" sampleData (some 3)).initialHtml] :=
  (generateHtmlCore_write_discipline "A{{document.isSinglePage}}B" sampleData
    (some 3)).1 (by decide)

/-- C8: the empty transaction sequence renders the exact empty-state
fragment: one `<tr>`, one `<td>` spanning all seven columns
(`colspan="7"`), containing the literal text `No transactions recorded.`. -/
theorem renderTransactions_empty_state :
    renderTransactions [] =
      "\n      <tr>\n        <td colspan=\"7\" class=\"empty-state\">No transactions recorded.</td>\n      </tr>\n    " ∧
    countSubstr "<tr" (renderTransactions []) = 1 ∧
    countSubstr "<td" (renderTransactions []) = 1 ∧
    containsSubstr "colspan=\"7\"" (renderTransactions []) = true ∧
    containsSubstr "No transactions recorded." (renderTransactions []) = true := by
  refine ⟨by decide, by decide, by decide, by decide, by decide⟩

/-- C9: the currency formatter maps `1234.5` (the exact double
`12345 / 10`) to `"$1,234.50"`, and maps `undefined`/`null` (`none`) and
`NaN` to `""` — never to `"$0.00"` or `"NaN"`. -/
theorem formatCurrency_spec_values :
    formatCurrency (some (JNum.dec 12345 1)) = "$1,234.50" ∧
    formatCurrency none = "" ∧
    formatCurrency (some JNum.nan) = "" ∧
    formatCurrency none ≠ "$0.00" ∧
    formatCurrency (some JNum.nan) ≠ "$0.00" ∧
    formatCurrency (some JNum.nan) ≠ "NaN" := by
  refine ⟨by decide, by decide, by decide, by decide, by decide, by decide⟩

theorem flattenFields_nil (pre : String) (m : TokenMap) :
    flattenFields [] pre m = m := by
  simp [flattenFields]

/-- C10: the synthetic tokens installed by `buildTemplateReplacements`
override any same-named entries produced by flattening: for every Data
Record and render options, the entries `balances.opening`,
`balances.withdrawals`, `balances.deposits` and `balances.closing` are the
currency-formatted strings, and `recipient.addressHtml` and
`transactions.rows` are the fragment-renderer outputs.  Flattening alone
does map `balances.opening` to the raw stringified number (shown on the
concrete record), and a currency-formatted string never coincides with the
raw stringification. -/
theorem buildTemplateReplacements_synthetic_override (data : TemplateData)
    (options : TemplateRenderOptions) :
    lookupToken (buildTemplateReplacements data options) "balances.opening" =
      some (formatCurrency (some data.balances.opening)) ∧
    lookupToken (buildTemplateReplacements data options) "balances.withdrawals" =
      some (formatCurrency (some data.balances.withdrawals)) ∧
    lookupToken (buildTemplateReplacements data options) "balances.deposits" =
      some (formatCurrency (some data.balances.deposits)) ∧
    lookupToken (buildTemplateReplacements data options) "balances.closing" =
      some (formatCurrency (some data.balances.closing)) ∧
    lookupToken (buildTemplateReplacements data options) "recipient.addressHtml" =
      some (renderAddress data.recipient.addressLines) ∧
    lookupToken (buildTemplateReplacements data options) "transactions.rows" =
      some (renderTransactions data.transactions) ∧
    lookupToken (flattenObject sampleData.toJson "" []) "balances.opening" =
      some (jnumToString (JNum.dec 12345 1)) ∧
    ∀ n : JNum, formatCurrency (some n) ≠ jnumToString n := by
  refine ⟨?_, ?_, ?_, ?_, ?_, ?_, ?_, formatCurrency_ne_jnumToString⟩
  · simp [buildTemplateReplacements, lookupToken]
  · simp [buildTemplateReplacements, lookupToken]
  · simp [buildTemplateReplacements, lookupToken]
  · simp [buildTemplateReplacements, lookupToken]
  · simp [buildTemplateReplacements, lookupToken]
  · simp [buildTemplateReplacements, lookupToken]
  · simp [sampleData, sampleDocument, sampleMeta, TemplateData.toJson,
      DocumentData.toJson, DocumentMeta.toJson, optStrField,
      flattenObject, flattenFields_nil, flattenFields_cons, flattenEntry,
      joinPath, lookupToken]
